import Mathlib

/-!
Verification of the client-side components of the Advanced Coding XBlock
(student workspace `advanced_coding.js` and studio form
`advanced_coding_studio.js`) against its natural-language specification.

The JavaScript is shallowly embedded: strings are Lean `String`s, DOM
state is explicit record state, jQuery/DOM effects become pure record
updates, and asynchronous handler calls are modelled by passing the
response outcome (`Except Unit HandlerResponse` and friends) to the
function that installs the continuation.
-/

/- ## Generic string helpers (models of JS built-ins) -/

/-- Model of the whitespace class stripped by JavaScript
`String.prototype.trim` (restricted to the ASCII whitespace characters
that can occur in this UI; NBSP and Unicode spaces are omitted). -/
def jsWhitespace (c : Char) : Bool :=
  c == ' ' || c == '\t' || c == '\n' || c == '\r'

/-- Model of JavaScript `value.trim()`. -/
def jsTrim (s : String) : String :=
  ⟨((s.data.dropWhile jsWhitespace).reverse.dropWhile jsWhitespace).reverse⟩

/-- Splitter used to model `str.split(',')`: JS returns `['']` on the
empty string and keeps empty segments, exactly like this recursion. -/
def splitCommaAux : List Char → List Char → List String
  | [], acc => [⟨acc.reverse⟩]
  | c :: rest, acc =>
    if c == ',' then ⟨acc.reverse⟩ :: splitCommaAux rest []
    else splitCommaAux rest (c :: acc)

/-- Model of JavaScript `str.split(',')`. -/
def splitComma (s : String) : List String :=
  splitCommaAux s.data []

/-- Does `hay` start with `needle`? (character-exact). -/
def startsWithList : List Char → List Char → Bool
  | [], _ => true
  | _ :: _, [] => false
  | a :: as, b :: bs => a == b && startsWithList as bs

/-- Does `hay` contain `needle` as a contiguous substring?  Models the
CSS attribute selector `[data-validate*="required"]` substring test. -/
def hasSubList (needle : List Char) : List Char → Bool
  | [] => needle.isEmpty
  | c :: rest => startsWithList needle (c :: rest) || hasSubList needle rest

/-- Substring test on strings. -/
def hasSubstr (needle hay : String) : Bool :=
  hasSubList needle.data hay.data

/-- Model of JavaScript `name.includes(c)` for a single character. -/
def containsChar (s : String) (c : Char) : Bool :=
  s.data.any (fun x => x == c)

def isDigitB (c : Char) : Bool := c.isDigit

/-- Decimal digits of a natural number, fuel-structured so that it
reduces in the kernel; `natChars (n+1) n` is the full numeral. -/
def natChars : Nat → Nat → List Char
  | 0, _ => []
  | fuel + 1, n =>
    if n < 10 then [Nat.digitChar n]
    else natChars fuel (n / 10) ++ [Nat.digitChar (n % 10)]

/-- Model of JavaScript number-to-string interpolation for naturals. -/
def natStr (n : Nat) : String := ⟨natChars (n + 1) n⟩

def isHexB (c : Char) : Bool :=
  c.isDigit || ('a' ≤ c && c ≤ 'f') || ('A' ≤ c && c ≤ 'F')

def isOctB (c : Char) : Bool := '0' ≤ c && c ≤ '7'

def isBinB (c : Char) : Bool := c == '0' || c == '1'

/-- Exponent suffix of a JS decimal numeral (or nothing at all). -/
def decExpo (cs : List Char) : Bool :=
  match cs with
  | [] => true
  | c :: rest =>
    (c == 'e' || c == 'E') &&
      (let r2 := match rest with
        | s :: t => if s == '+' || s == '-' then t else rest
        | [] => rest
       let ds := r2.takeWhile isDigitB
       !ds.isEmpty && (r2.drop ds.length).isEmpty)

/-- Body of a JS decimal numeral: digits, optional fraction, optional
exponent; at least one digit before or after the dot. -/
def decValid (cs : List Char) : Bool :=
  let ip := cs.takeWhile isDigitB
  let r1 := cs.drop ip.length
  match r1 with
  | '.' :: t =>
    let fp := t.takeWhile isDigitB
    (!ip.isEmpty || !fp.isEmpty) && decExpo (t.drop fp.length)
  | _ => !ip.isEmpty && decExpo r1

/-- Model of the JavaScript string-numeric-literal grammar accepted by
`Number(value)` for an already-trimmed `value` (decimal with optional
sign, fraction and exponent; `Infinity`; unsigned hex/octal/binary).
`Number('')` is `0`, hence the empty string is accepted. -/
def jsNumberValid (cs : List Char) : Bool :=
  match cs with
  | [] => true
  | c0 :: r0 =>
    let signed := c0 == '+' || c0 == '-'
    let body := if signed then r0 else c0 :: r0
    if body == ['I', 'n', 'f', 'i', 'n', 'i', 't', 'y'] then true
    else
      match body with
      | '0' :: x :: rest =>
        if (x == 'x' || x == 'X') && !signed then !rest.isEmpty && rest.all isHexB
        else if (x == 'o' || x == 'O') && !signed then !rest.isEmpty && rest.all isOctB
        else if (x == 'b' || x == 'B') && !signed then !rest.isEmpty && rest.all isBinB
        else decValid body
      | _ => decValid body

/-- Model of `isNaN(Number(value))` on a trimmed string. -/
def jsIsNaN (s : String) : Bool := !(jsNumberValid s.data)

/-- Model of the case-insensitive regex test
`/^https?:\/\/.+/i.test(value)`: an http or https scheme followed by at
least one character that `.` can match (not a line terminator). -/
def urlOk (v : String) : Bool :=
  let lv := v.data.map Char.toLower
  match lv with
  | 'h' :: 't' :: 't' :: 'p' :: rest =>
    let tail : Option (List Char) :=
      match rest with
      | 's' :: ':' :: '/' :: '/' :: t => some t
      | ':' :: '/' :: '/' :: t => some t
      | _ => none
    match tail with
    | some (c :: _) => !(c == '\n' || c == '\r')
    | _ => false
  | _ => false

/-- One character of `escapeHtml`: the text-node to innerHTML round
trip of the source's `escapeHtml` rewrites the three HTML
metacharacters and leaves everything else alone. -/
def escChar (c : Char) : List Char :=
  if c == '&' then ['&', 'a', 'm', 'p', ';']
  else if c == '<' then ['&', 'l', 't', ';']
  else if c == '>' then ['&', 'g', 't', ';']
  else [c]

/-- Source `escapeHtml(text)` from the workspace component: set `textContent`
of a detached div and read back `innerHTML`. -/
def escapeHtml (s : String) : String :=
  ⟨(s.data.map escChar).flatten⟩

/- ## Studio component: field and form validation
   (`advanced_coding_studio.js`, `validateField` / `validateForm`) -/

/-- One form input: its current value and its `data-validate` attribute
(`""` when the attribute is absent). -/
structure FieldInput where
  value : String
  validateAttr : String
  deriving DecidableEq

/-- Outcome of `validateField`: validity, the single inline feedback
message attached below the field (if any), and the css class left on
the field (`error`, `success` or none). -/
structure FieldResult where
  isValid : Bool
  feedback : Option String
  cssClass : String
  deriving DecidableEq

def requiredMsg : String := "This field is required"
def numberMsg : String := "Please enter a valid number"
def urlMsg : String := "Please enter a valid URL starting with http:// or https://"

/-- Source `validateField($field)`: trims the value, splits the rule list, and
runs the three checks in source order, each failing check overwriting
`isValid`/`message`; prior feedback is removed first (modelled by the
result being the only feedback). -/
def validateField (f : FieldInput) : FieldResult :=
  let value := jsTrim f.value
  let validations := splitComma f.validateAttr
  let s1 : Bool × String := (true, "")
  let s2 := if validations.contains "required" && value == "" then
      (false, requiredMsg) else s1
  let s3 := if validations.contains "number" && value != "" && jsIsNaN value then
      (false, numberMsg) else s2
  let s4 := if validations.contains "url" && value != "" && !(urlOk value) then
      (false, urlMsg) else s3
  { isValid := s4.1
    feedback := if !s4.1 then some s4.2 else none
    cssClass :=
      if !s4.1 then "error"
      else if validations.contains "required" && value != "" then "success"
      else "" }

/-- A studio form snapshot: every input of the form, plus the number of
`.test-case-item` and `.language-item` blocks currently in the DOM. -/
structure StudioForm where
  fields : List FieldInput
  testCaseCount : Nat
  languageCount : Nat

/-- Source `validateForm()`: re-validates exactly the fields matched by
`$form.find('[data-validate*="required"]')` (attribute substring
match), plus the two structural checks, and returns the aggregate that
is written into the save button's `disabled` property (negated). -/
def validateForm (form : StudioForm) : Bool :=
  (form.fields.filter (fun f => hasSubstr "required" f.validateAttr)).all
      (fun f => (validateField f).isValid)
    && !(form.testCaseCount == 0)
    && !(form.languageCount == 0)

/-- The save button is enabled exactly when `validateForm` returns
true (`$saveButton.prop('disabled', !isValid)`). -/
def saveButtonEnabled (form : StudioForm) : Bool := validateForm form

/-- Modelled from the spec: the form-level validation that claim C2
describes, aggregating the per-field results of all fields carrying
validation rules (any non-empty `data-validate`), plus the two
structural checks. -/
def validateFormSpecAllRules (form : StudioForm) : Bool :=
  (form.fields.filter (fun f => f.validateAttr != "")).all
      (fun f => (validateField f).isValid)
    && !(form.testCaseCount == 0)
    && !(form.languageCount == 0)

/-- Modelled from the spec: the inline message claim C4 predicts, the
message of the first failing rule in declared order
(required, number, url). -/
def firstFailingFeedback (f : FieldInput) : Option String :=
  let value := jsTrim f.value
  let validations := splitComma f.validateAttr
  if validations.contains "required" && value == "" then some requiredMsg
  else if validations.contains "number" && value != "" && jsIsNaN value then some numberMsg
  else if validations.contains "url" && value != "" && !(urlOk value) then some urlMsg
  else none

/-- The message the code actually attaches: the last failing rule in
declared order wins, because each later check overwrites the message. -/
def lastFailingFeedback (f : FieldInput) : Option String :=
  let value := jsTrim f.value
  let validations := splitComma f.validateAttr
  if validations.contains "url" && value != "" && !(urlOk value) then some urlMsg
  else if validations.contains "number" && value != "" && jsIsNaN value then some numberMsg
  else if validations.contains "required" && value == "" then some requiredMsg
  else none

/- ## Studio component: repeated field groups
   (`addTestCase` / `removeTestCase` / `updateTestCaseIndexes`,
   `addLanguage` / `removeLanguage` / `updateLanguageIndexes`).
   A block is modelled by the list of `name` attributes of its inputs
   and textareas. -/

/-- Source `name.replace(/\[\d+\]/, '[' + index + ']')`: replace the first
bracketed run of digits by the bracketed replacement, scanning left to
right, leaving the string unchanged when there is no match. -/
def rfnb (idxStr : List Char) : List Char → List Char
  | [] => []
  | c :: rest =>
    if c == '[' then
      let ds := rest.takeWhile isDigitB
      if !ds.isEmpty && ((rest.drop ds.length).head? == some ']') then
        '[' :: (idxStr ++ ']' :: (rest.drop ds.length).tail)
      else c :: rfnb idxStr rest
    else c :: rfnb idxStr rest

/-- First bracketed run of digits in a name attribute, if any (used to
state the index invariant the spec claims). -/
def fnb : List Char → Option (List Char)
  | [] => none
  | c :: rest =>
    if c == '[' then
      let ds := rest.takeWhile isDigitB
      if !ds.isEmpty && ((rest.drop ds.length).head? == some ']') then some ds
      else fnb rest
    else fnb rest

/-- First bracketed numeric index of a name attribute, as a string. -/
def fnbOpt (nm : String) : Option String := (fnb nm.data).map String.mk

/-- A test-case input name as generated by `createTestCaseHtml`:
`test_cases[<k>][<field>]` with `k` zero-based. -/
def tcFieldName (k : Nat) (f : String) : String :=
  "test_cases[" ++ natStr k ++ "][" ++ f ++ "]"

/-- Input/textarea names of one test-case block, in DOM order
(from `createTestCaseHtml(testId, index)` with `index = k + 1`). -/
def tcBlock (k : Nat) : List String :=
  [tcFieldName k "id", tcFieldName k "name", tcFieldName k "points",
   tcFieldName k "timeout", tcFieldName k "input",
   tcFieldName k "expected_output", tcFieldName k "is_public"]

/-- A language input name as generated by `createLanguageHtml`:
`supported_languages[<key>][<field>]`, keyed by the language key. -/
def langFieldName (key f : String) : String :=
  "supported_languages[" ++ key ++ "][" ++ f ++ "]"

/-- Input/textarea names of one language block, in DOM order. -/
def langBlock (key : String) : List String :=
  [langFieldName key "key", langFieldName key "name", langFieldName key "id",
   langFieldName key "extension", langFieldName key "template"]

/-- The per-input body of `updateTestCaseIndexes`: rewrite the name to
index `i` when it contains both brackets. -/
def reindexName (i : Nat) (nm : String) : String :=
  if containsChar nm '[' && containsChar nm ']' then
    ⟨rfnb (natChars (i + 1) i) nm.data⟩
  else nm

/-- Source `updateTestCaseIndexes()` body, iterating the blocks with their
jQuery `.each` index starting at `i` (titles, which it also rewrites,
are not part of the model). -/
def updateTestCaseIndexesFrom : Nat → List (List String) → List (List String)
  | _, [] => []
  | i, blk :: rest =>
    blk.map (reindexName i) :: updateTestCaseIndexesFrom (i + 1) rest

/-- Source `updateTestCaseIndexes()` over the whole group. -/
def updateTestCaseIndexes (blocks : List (List String)) : List (List String) :=
  updateTestCaseIndexesFrom 0 blocks

/-- Studio repeated-group state: the test-case blocks and the language
blocks, each block being its list of input name attributes in DOM
order. -/
structure StudioState where
  testCases : List (List String)
  languages : List (List String)
  deriving DecidableEq

/-- Source `addTestCase()`: append a fresh block generated with the current
count, then re-index all blocks. -/
def addTestCase (st : StudioState) : StudioState :=
  { st with testCases :=
      updateTestCaseIndexes (st.testCases ++ [tcBlock st.testCases.length]) }

/-- Source `removeTestCase($testCase)`: rejected (with a notification, not
modelled) when only one block remains; otherwise remove the block and
re-index. -/
def removeTestCase (st : StudioState) (i : Nat) : StudioState :=
  if st.testCases.length ≤ 1 then st
  else { st with testCases := updateTestCaseIndexes (st.testCases.eraseIdx i) }

/-- Source `addLanguage()`: append a block keyed `language_<count+1>`.
`updateLanguageIndexes()` runs afterwards but only rewrites the visible
titles, never any `name` attribute, so the name model is unchanged. -/
def addLanguage (st : StudioState) : StudioState :=
  { st with languages :=
      st.languages ++ [langBlock ("language_" ++ natStr (st.languages.length + 1))] }

/-- Source `removeLanguage($language)`: rejected when only one block remains;
otherwise remove the block (again, `updateLanguageIndexes` touches no
name attribute). -/
def removeLanguage (st : StudioState) (i : Nat) : StudioState :=
  if st.languages.length ≤ 1 then st
  else { st with languages := st.languages.eraseIdx i }

/-- The add/remove operations of the studio repeated groups. -/
inductive StudioOp where
  | addTC : StudioOp
  | rmTC : Nat → StudioOp
  | addLang : StudioOp
  | rmLang : Nat → StudioOp
  deriving DecidableEq

def applyStudioOp (st : StudioState) : StudioOp → StudioState
  | .addTC => addTestCase st
  | .rmTC i => removeTestCase st i
  | .addLang => addLanguage st
  | .rmLang i => removeLanguage st i

/-- An empty studio form, before any block is added. -/
def studioStart : StudioState := ⟨[], []⟩

/-- Decidable form of the spec's index invariant for one group: block
number `i` (in visual order, counting from `i0`) carries names whose
first bracketed numeric index is exactly `i`. -/
def groupIndexedFromB : Nat → List (List String) → Bool
  | _, [] => true
  | i, blk :: rest =>
    blk.all (fun nm => fnbOpt nm == some (natStr i)) && groupIndexedFromB (i + 1) rest

/-- The invariant claim C3 states, over both repeated groups. -/
def bothGroupsIndexedB (st : StudioState) : Bool :=
  groupIndexedFromB 0 st.testCases && groupIndexedFromB 0 st.languages

/-- Relational form of the test-case index invariant: block `i` uses
exactly the names `test_cases[i][...]`. -/
def TCIndexedFrom : Nat → List (List String) → Prop
  | _, [] => True
  | i, blk :: rest =>
    (∀ nm ∈ blk, ∃ f, nm = tcFieldName i f) ∧ TCIndexedFrom (i + 1) rest

/-- Shape invariant preserved by every operation: every name in every
test-case block is some `test_cases[k][f]`. -/
def TCShaped (blocks : List (List String)) : Prop :=
  ∀ blk ∈ blocks, ∀ nm ∈ blk, ∃ k f, nm = tcFieldName k f

/- ## Student workspace component (`advanced_coding.js`) -/

/-- Per-file data kept in `this.studentFiles[filename]`. -/
structure FileData where
  content : String
  language : String
  createdAt : Option String
  modifiedAt : Option String
  deriving DecidableEq

/-- Studio-configured language entry; only the template is read by the
workspace code under verification (`getTemplateForLanguage`). -/
structure LangConfig where
  template : String
  deriving DecidableEq

/-- The server handler JSON response shape shared by `save_file`,
`delete_file` and `rename_file` (`error` is `""` when absent, matching
JS falsiness of a missing field). -/
structure HandlerResponse where
  success : Bool
  message : String
  error : String
  deriving DecidableEq

/-- Workspace state: the in-memory file map (an insertion-ordered
association list, matching iteration order of a JS object with
non-integer keys), the active-file and language pointers, the tab strip
and its `modified` markers, the editor widget contents, the execution
UI state, and the notification area.  Tab label text (the `*` suffix)
and modal state are not modelled. -/
structure WState where
  files : List (String × FileData)
  activeFile : String
  currentLanguage : String
  tabs : List String
  dirtyTabs : List String
  activeTab : String
  selectorValue : String
  editorContent : String
  editorLanguage : String
  isExecuting : Bool
  buttonsDisabled : Bool
  loadingShown : Bool
  consoleHTML : String
  activeOutputTab : String
  notifications : List (String × String)
  supportedLanguages : List (String × LangConfig)
  deriving DecidableEq

/-- Source `delete this.studentFiles[filename]` on the association list. -/
def eraseKey (k : String) (l : List (String × FileData)) : List (String × FileData) :=
  l.filter (fun p => p.1 != k)

/-- Replace the data stored under an existing key
(`this.studentFiles[filename] = {...}` semantics on the list). -/
def setKey (k : String) (fd : FileData) : List (String × FileData) → List (String × FileData)
  | [] => []
  | p :: t => if p.1 == k then (p.1, fd) :: setKey k fd t else p :: setKey k fd t

/-- Source `showNotification(type, message)`: append a transient notification. -/
def notify (st : WState) (kind msg : String) : WState :=
  { st with notifications := st.notifications ++ [(kind, msg)] }

/-- The `LANGUAGE_MAPPINGS` table. -/
def LANGUAGE_MAPPINGS : List (String × String) :=
  [("python", "python"), ("java", "java"), ("cpp", "cpp"), ("c", "c"),
   ("javascript", "javascript"), ("typescript", "typescript"),
   ("html", "html"), ("css", "css"), ("json", "json"), ("xml", "xml"),
   ("markdown", "markdown")]

/-- Source `getMonacoLanguage(language)`. -/
def getMonacoLanguage (language : String) : String :=
  (List.lookup language LANGUAGE_MAPPINGS).getD "plaintext"

/-- Source `getTemplateForLanguage(language)`. -/
def getTemplateForLanguage (st : WState) (language : String) : String :=
  match List.lookup language st.supportedLanguages with
  | some cfg => cfg.template
  | none => "// Write your code here"

/-- Source `loadActiveFile()`: push the active file's stored content (or the
language template when the stored content is absent or empty, matching
`fileData.content || template`) and language into the editor widget. -/
def loadActiveFile (st : WState) : WState :=
  let stored := match List.lookup st.activeFile st.files with
    | some fd => fd.content
    | none => ""
  let content := if stored == "" then getTemplateForLanguage st st.currentLanguage
    else stored
  { st with editorContent := content,
            editorLanguage := getMonacoLanguage st.currentLanguage }

/-- Source `updateFileTabsUI()`: the tab of the active file gets the `active`
class, every other tab loses it. -/
def updateFileTabsUI (st : WState) : WState :=
  { st with activeTab := st.activeFile }

/-- Source `updateLanguageSelector()`. -/
def updateLanguageSelector (st : WState) : WState :=
  { st with selectorValue := st.currentLanguage }

/-- Result of `switchToFile`: the new state plus what the call did —
whether it fired a save of the previous file, reloaded the editor, and
re-rendered the tab/selector DOM. -/
structure SwitchResult where
  state : WState
  saveIssued : Bool
  editorReloaded : Bool
  tabsRerendered : Bool
  deriving DecidableEq

/-- Source `switchToFile(filename, language)`: early-returns when the file is
already active; otherwise fires a save of the current file (the
asynchronous continuation is modelled separately by
`saveFileSuccess`), moves the pointers, reloads the editor and updates
the tab/selector visuals. -/
def switchToFile (st : WState) (filename language : String) : SwitchResult :=
  if st.activeFile == filename then ⟨st, false, false, false⟩
  else
    let st1 := { st with activeFile := filename, currentLanguage := language }
    let st2 := loadActiveFile st1
    let st3 := updateLanguageSelector (updateFileTabsUI st2)
    ⟨st3, true, true, true⟩

/-- Source `removeModifiedMark(filename)`: drop the `modified` class (and the
`*` suffix, not modelled) from that file's tab. -/
def removeModifiedMark (st : WState) (filename : String) : WState :=
  { st with dirtyTabs := st.dirtyTabs.erase filename }

/-- Source `updateStudentFiles(filename, content)`: write the content, the
response-time `this.currentLanguage` and a fresh `modified_at` into the
map, creating the entry if needed. -/
def updateStudentFiles (st : WState) (filename content now : String) : WState :=
  match List.lookup filename st.files with
  | some fd =>
    let fd2 := { fd with content := content, language := st.currentLanguage,
                         modifiedAt := some now }
    { st with files := setKey filename fd2 st.files }
  | none =>
    let fd2 : FileData := ⟨content, st.currentLanguage, none, some now⟩
    { st with files := st.files ++ [(filename, fd2)] }

/-- The success continuation installed by `saveCurrentFile()` for a
request that carried `content`: it reads `this.activeFile` at response
time, clears that tab's dirty mark and stores the captured content
under the *current* active file. -/
def saveFileSuccess (st : WState) (content now : String) : WState :=
  updateStudentFiles (removeModifiedMark st st.activeFile) st.activeFile content now

/-- Result of `createNewFile`: the new state and whether the
`save_file` handler was contacted. -/
structure CreateResult where
  state : WState
  called : Bool
  deriving DecidableEq

/-- Source `createNewFile()` with the modal inputs `rawName`/`language` and
the handler outcome (`Except.error` is a transport failure): validates
locally, then registers the file, adds its tab and switches to it only
on a successful response. -/
def createNewFile (st : WState) (rawName language now : String)
    (outcome : Except Unit HandlerResponse) : CreateResult :=
  let filename := jsTrim rawName
  if filename == "" then
    ⟨notify st "error" "File name is required", false⟩
  else if (List.lookup filename st.files).isSome then
    ⟨notify st "error" "File already exists", false⟩
  else
    let content := getTemplateForLanguage st language
    match outcome with
    | .ok resp =>
      if resp.success then
        let fd : FileData := ⟨content, language, some now, some now⟩
        let st1 := { st with files := st.files ++ [(filename, fd)] }
        let st2 := { st1 with tabs := st1.tabs ++ [filename] }
        let st3 := (switchToFile st2 filename language).state
        ⟨notify st3 "success" ("File " ++ filename ++ " created successfully"), true⟩
      else
        ⟨notify st "error" (if resp.error != "" then resp.error
          else "Failed to create file"), true⟩
    | .error _ => ⟨notify st "error" "Failed to create file", true⟩

/-- Result of `deleteFile`: the new state, whether the confirmation
dialog was shown, and whether the `delete_file` handler was called. -/
structure DeleteResult where
  state : WState
  prompted : Bool
  called : Bool
  deriving DecidableEq

/-- Source `deleteFile(filename)` with the user's confirmation answer and the
handler outcome: last-file guard first, then the confirm dialog, then
the handler call; on success the file and its tab are removed and, when
it was active, the workspace switches to `Object.keys(...)[0]` of the
remaining map. -/
def deleteFile (st : WState) (filename : String) (confirmed : Bool)
    (outcome : Except Unit HandlerResponse) : DeleteResult :=
  if st.files.length ≤ 1 then
    ⟨notify st "error" "Cannot delete the last file", false, false⟩
  else if !confirmed then ⟨st, true, false⟩
  else
    match outcome with
    | .ok resp =>
      if resp.success then
        let st1 := { st with files := eraseKey filename st.files,
                             tabs := st.tabs.erase filename }
        let st2 :=
          if st1.activeFile == filename then
            match st1.files.head? with
            | some p => (switchToFile st1 p.1 p.2.language).state
            | none => st1
          else st1
        ⟨notify st2 "success" resp.message, true, true⟩
      else
        ⟨notify st "error" (if resp.error != "" then resp.error
          else "Failed to delete file"), true, true⟩
    | .error _ => ⟨notify st "error" "Failed to delete file", true, true⟩

/-- Modelled from the spec: the lexicographically-first element of a
list of file names (code-point order), which claim C9 says the delete
path switches to. -/
def lexLtChars : List Char → List Char → Bool
  | [], [] => false
  | [], _ :: _ => true
  | _ :: _, [] => false
  | a :: as, b :: bs => if a == b then lexLtChars as bs else decide (a < b)

/-- Modelled from the spec: lexicographic minimum of the remaining file
names. -/
def lexFirst (l : List String) : Option String :=
  match l with
  | [] => none
  | x :: xs => some (xs.foldl (fun m s => if lexLtChars s.data m.data then s else m) x)

/-- Judge0 status object inside a `run_code` response. -/
structure RunStatus where
  description : String
  deriving DecidableEq

/-- The `run_code` handler response.  String fields model the JSON
text; a missing field is the empty string (JS-falsy), and `time` /
`memory` carry the textual form in which they are interpolated. -/
structure RunResponse where
  success : Bool
  compile_output : String
  output : String
  error : String
  status : Option RunStatus
  time : String
  memory : String
  deriving DecidableEq

/-- One entry of `test_results` in a `submit_solution` response. -/
structure TestResult where
  name : String
  passed : Bool
  points : Nat
  earned_points : Nat
  is_public : Bool
  expected_output : String
  actual_output : String
  deriving DecidableEq

/-- The `submit_solution` handler response (success case).  The score
is a non-negative multiple of 0.1, stored in tenths so that
`score.toFixed(1)` is exactly `scoreFixed1`. -/
structure SubmitResponse where
  passed_tests : Nat
  total_tests : Nat
  scoreTenths : Nat
  max_score : Nat
  test_results : List TestResult
  deriving DecidableEq

/-- Source `score.toFixed(1)` for a non-negative score given in tenths. -/
def scoreFixed1 (tenths : Nat) : String :=
  natStr (tenths / 10) ++ "." ++ natStr (tenths % 10)

/-- Source `displayExecutionResult(response)`: the innerHTML written to the
console output pane.  Inter-tag whitespace of the source template
literals is normalised away; note that the status line interpolates
`status.description`, `time` and `memory` without `escapeHtml`. -/
def displayExecutionResult (r : RunResponse) : String :=
  if r.success then
    (if r.compile_output != "" then
      "<div class=\"console-section\"><div class=\"console-label\">Compilation:</div><div class=\"output-line\">"
        ++ escapeHtml r.compile_output ++ "</div></div>"
     else "") ++
    (if r.output != "" then
      "<div class=\"console-section\"><div class=\"console-label\">Output:</div><div class=\"success-line\">"
        ++ escapeHtml r.output ++ "</div></div>"
     else "<div class=\"console-section\"><div class=\"console-message\">No output produced</div></div>") ++
    (if r.error != "" then
      "<div class=\"console-section\"><div class=\"console-label\">Errors:</div><div class=\"error-line\">"
        ++ escapeHtml r.error ++ "</div></div>"
     else "") ++
    (match r.status with
     | some st =>
       "<div class=\"console-section\"><div class=\"console-info\">Status: "
         ++ (if st.description != "" then st.description else "Completed")
         ++ " | Time: " ++ (if r.time != "" then r.time else "0")
         ++ "s | Memory: " ++ (if r.memory != "" then r.memory else "0")
         ++ "KB</div></div>"
     | none => "")
  else
    "<div class=\"error-line\">"
      ++ escapeHtml (if r.error != "" then r.error else "Execution failed")
      ++ "</div>"

/-- Source `displayExecutionError(error)`: generic transport-failure line. -/
def displayExecutionError (error : String) : String :=
  "<div class=\"error-line\">" ++ escapeHtml error ++ "</div>"

/-- One `test-result-item` block of `displaySubmissionResult`. -/
def testResultItemHtml (t : TestResult) : String :=
  let statusClass := if t.passed then "passed" else "failed"
  let statusIcon := if t.passed then "✓" else "✗"
  "<div class=\"test-result-item " ++ statusClass ++ "\"><div class=\"test-result-header\"><div class=\"test-result-name\">"
    ++ escapeHtml t.name
    ++ "</div><div class=\"test-result-status " ++ statusClass ++ "\">"
    ++ statusIcon ++ " " ++ (if t.passed then "Passed" else "Failed")
    ++ "<span class=\"test-result-points\">" ++ natStr t.earned_points ++ "/"
    ++ natStr t.points ++ " pts</span></div></div>"
    ++ (if t.is_public then
        "<div class=\"test-result-details\"><div class=\"test-result-output\"><label>Expected Output:</label><pre>"
          ++ escapeHtml t.expected_output
          ++ "</pre></div><div class=\"test-result-output\"><label>Your Output:</label><pre>"
          ++ escapeHtml t.actual_output ++ "</pre></div></div>"
       else "")
    ++ "</div>"

/-- Source `displaySubmissionResult(response)`: the pair of innerHTML strings
written to the test summary and the test results list. -/
def displaySubmissionResult (s : SubmitResponse) : String × String :=
  (natStr s.passed_tests ++ "/" ++ natStr s.total_tests ++ " tests passed | Score: "
     ++ scoreFixed1 s.scoreTenths ++ "/" ++ natStr s.max_score,
   (s.test_results.map testResultItemHtml).foldl (fun acc h => acc ++ h) "")

/-- Source `setExecutionState(executing)`: flag, loading overlay and the three
run/submit buttons. -/
def setExecutionState (st : WState) (executing : Bool) : WState :=
  { st with isExecuting := executing, loadingShown := executing,
            buttonsDisabled := executing }

/-- Source `switchOutputTab(tabName)`. -/
def switchOutputTab (st : WState) (tabName : String) : WState :=
  { st with activeOutputTab := tabName }

/-- Source `runCode()` applied to the eventual outcome of its `run_code` call:
re-entrancy guard, then `setExecutionState(true)`, console tab, the
response/transport-error rendering, and the `.finally` restoration. -/
def runCode (st : WState) (outcome : Except Unit RunResponse) : WState :=
  if st.isExecuting then st
  else
    let st1 := setExecutionState st true
    let st2 := switchOutputTab st1 "console"
    let st3 := match outcome with
      | .ok r => { st2 with consoleHTML := displayExecutionResult r }
      | .error _ => { st2 with consoleHTML := displayExecutionError "Failed to execute code" }
    setExecutionState st3 false

/-- Modelled from the spec: the rendering claim C1 describes for
`displayExecutionResult`, identical to the code except that the status
description, time and memory are also HTML-escaped before insertion. -/
def displayExecutionResultSpecEscaped (r : RunResponse) : String :=
  if r.success then
    (if r.compile_output != "" then
      "<div class=\"console-section\"><div class=\"console-label\">Compilation:</div><div class=\"output-line\">"
        ++ escapeHtml r.compile_output ++ "</div></div>"
     else "") ++
    (if r.output != "" then
      "<div class=\"console-section\"><div class=\"console-label\">Output:</div><div class=\"success-line\">"
        ++ escapeHtml r.output ++ "</div></div>"
     else "<div class=\"console-section\"><div class=\"console-message\">No output produced</div></div>") ++
    (if r.error != "" then
      "<div class=\"console-section\"><div class=\"console-label\">Errors:</div><div class=\"error-line\">"
        ++ escapeHtml r.error ++ "</div></div>"
     else "") ++
    (match r.status with
     | some st =>
       "<div class=\"console-section\"><div class=\"console-info\">Status: "
         ++ escapeHtml (if st.description != "" then st.description else "Completed")
         ++ " | Time: " ++ escapeHtml (if r.time != "" then r.time else "0")
         ++ "s | Memory: " ++ escapeHtml (if r.memory != "" then r.memory else "0")
         ++ "KB</div></div>"
     | none => "")
  else
    "<div class=\"error-line\">"
      ++ escapeHtml (if r.error != "" then r.error else "Execution failed")
      ++ "</div>"

/-- Modelled from the spec: the test-result item with every
server-returned field, the numeric points included, HTML-escaped. -/
def testResultItemHtmlSpecEscaped (t : TestResult) : String :=
  let statusClass := if t.passed then "passed" else "failed"
  let statusIcon := if t.passed then "✓" else "✗"
  "<div class=\"test-result-item " ++ statusClass ++ "\"><div class=\"test-result-header\"><div class=\"test-result-name\">"
    ++ escapeHtml t.name
    ++ "</div><div class=\"test-result-status " ++ statusClass ++ "\">"
    ++ statusIcon ++ " " ++ (if t.passed then "Passed" else "Failed")
    ++ "<span class=\"test-result-points\">" ++ escapeHtml (natStr t.earned_points) ++ "/"
    ++ escapeHtml (natStr t.points) ++ " pts</span></div></div>"
    ++ (if t.is_public then
        "<div class=\"test-result-details\"><div class=\"test-result-output\"><label>Expected Output:</label><pre>"
          ++ escapeHtml t.expected_output
          ++ "</pre></div><div class=\"test-result-output\"><label>Your Output:</label><pre>"
          ++ escapeHtml t.actual_output ++ "</pre></div></div>"
       else "")
    ++ "</div>"

/-- Modelled from the spec: `displaySubmissionResult` with every
server-returned field HTML-escaped. -/
def displaySubmissionResultSpecEscaped (s : SubmitResponse) : String × String :=
  (escapeHtml (natStr s.passed_tests) ++ "/" ++ escapeHtml (natStr s.total_tests)
     ++ " tests passed | Score: " ++ escapeHtml (scoreFixed1 s.scoreTenths) ++ "/"
     ++ escapeHtml (natStr s.max_score),
   (s.test_results.map testResultItemHtmlSpecEscaped).foldl (fun acc h => acc ++ h) "")

/- ## Concrete states used by witnesses and counterexamples -/

/-- A two-file workspace in its resting state. -/
def wsTwo : WState where
  files := [("main.py", ⟨"print(1)", "python", some "t0", some "t0"⟩),
            ("util.py", ⟨"x = 1", "python", some "t0", some "t0"⟩)]
  activeFile := "main.py"
  currentLanguage := "python"
  tabs := ["main.py", "util.py"]
  dirtyTabs := []
  activeTab := "main.py"
  selectorValue := "python"
  editorContent := "print(1)"
  editorLanguage := "python"
  isExecuting := false
  buttonsDisabled := false
  loadingShown := false
  consoleHTML := ""
  activeOutputTab := "console"
  notifications := []
  supportedLanguages := [("python", ⟨"# starter"⟩)]

/-- A single-file workspace. -/
def wsOne : WState :=
  { wsTwo with files := [("main.py", ⟨"print(1)", "python", some "t0", some "t0"⟩)],
               tabs := ["main.py"] }

/-- Three files whose insertion order differs from lexicographic
order; `m.py` is active. -/
def wsThree : WState :=
  { wsTwo with
      files := [("m.py", ⟨"1", "python", some "t0", some "t0"⟩),
                ("z.py", ⟨"2", "python", some "t0", some "t0"⟩),
                ("a.py", ⟨"3", "python", some "t0", some "t0"⟩)],
      activeFile := "m.py",
      tabs := ["m.py", "z.py", "a.py"],
      activeTab := "m.py" }

/- ## Helper lemmas -/

theorem strExt {a b : String} (h : a.data = b.data) : a = b := by
  cases a; cases b; exact congrArg String.mk h

theorem digitChar_isDigit {n : Nat} (h : n < 10) : (Nat.digitChar n).isDigit = true := by
  interval_cases n <;> decide

theorem natChars_digits : ∀ fuel n, ∀ c ∈ natChars fuel n, c.isDigit = true := by
  intro fuel
  induction fuel with
  | zero => intro n c hc; simp [natChars] at hc
  | succ f ih =>
    intro n c hc
    by_cases h : n < 10
    · simp [natChars, h] at hc
      subst hc; exact digitChar_isDigit h
    · simp [natChars, h] at hc
      rcases hc with hc | hc
      · exact ih _ _ hc
      · subst hc; exact digitChar_isDigit (Nat.mod_lt _ (by norm_num))

theorem natChars_ne_nil (n : Nat) : natChars (n + 1) n ≠ [] := by
  by_cases h : n < 10 <;> simp [natChars, h]

theorem takeWhile_all_append {p : Char → Bool} {l t : List Char}
    (h : ∀ c ∈ l, p c = true) :
    (l ++ t).takeWhile p = l ++ t.takeWhile p := by
  induction l with
  | nil => simp
  | cons a as ih => simp_all [List.takeWhile_cons]

theorem rfnb_skip {idx : List Char} {l cs : List Char}
    (h : ∀ c ∈ l, (c == '[') = false) :
    rfnb idx (l ++ cs) = l ++ rfnb idx cs := by
  induction l with
  | nil => simp
  | cons a as ih =>
    have ha := h a (by simp)
    simp only [List.cons_append, rfnb, ha, Bool.false_eq_true, if_false]
    exact congrArg (a :: ·) (ih (fun c hc => h c (by simp [hc])))

theorem rfnb_hit {idx ds tail : List Char}
    (hds : ∀ c ∈ ds, isDigitB c = true) (hne : ds ≠ []) :
    rfnb idx ('[' :: (ds ++ ']' :: tail)) = '[' :: (idx ++ ']' :: tail) := by
  have ht : (ds ++ ']' :: tail).takeWhile isDigitB = ds := by
    rw [takeWhile_all_append hds]
    simp [List.takeWhile_cons, isDigitB]
  have hd : (ds ++ ']' :: tail).drop ds.length = ']' :: tail := List.drop_left ds _
  simp [rfnb, ht, hd, hne]

theorem fnb_skip {l cs : List Char} (h : ∀ c ∈ l, (c == '[') = false) :
    fnb (l ++ cs) = fnb cs := by
  induction l with
  | nil => simp
  | cons a as ih =>
    have ha := h a (by simp)
    simp only [List.cons_append, fnb, ha, Bool.false_eq_true, if_false]
    exact ih (fun c hc => h c (by simp [hc]))

theorem fnb_hit {ds tail : List Char}
    (hds : ∀ c ∈ ds, isDigitB c = true) (hne : ds ≠ []) :
    fnb ('[' :: (ds ++ ']' :: tail)) = some ds := by
  have ht : (ds ++ ']' :: tail).takeWhile isDigitB = ds := by
    rw [takeWhile_all_append hds]
    simp [List.takeWhile_cons, isDigitB]
  have hd : (ds ++ ']' :: tail).drop ds.length = ']' :: tail := List.drop_left ds _
  simp [fnb, ht, hd, hne]

theorem tcFieldName_data (k : Nat) (f : String) :
    (tcFieldName k f).data =
      "test_cases".data ++ '[' :: (natChars (k + 1) k ++ ']' :: ('[' :: f.data ++ [']'])) := by
  have h1 : ("test_cases[" : String).data = "test_cases".data ++ ['['] := by decide
  have h2 : ("][" : String).data = ']' :: ['['] := by decide
  have h3 : ("]" : String).data = [']'] := by decide
  simp [tcFieldName, String.data_append, h1, h2, h3, natStr]

theorem test_cases_no_bracket : ∀ c ∈ ("test_cases" : String).data, (c == '[') = false := by
  decide

theorem reindexName_tcFieldName (i k : Nat) (f : String) :
    reindexName i (tcFieldName k f) = tcFieldName i f := by
  have hc1 : containsChar (tcFieldName k f) '[' = true := by
    simp [containsChar, tcFieldName_data, List.any_append]
  have hc2 : containsChar (tcFieldName k f) ']' = true := by
    simp [containsChar, tcFieldName_data, List.any_append]
  rw [reindexName, hc1, hc2]
  simp only [Bool.and_self, if_true]
  apply strExt
  show rfnb (natChars (i + 1) i) (tcFieldName k f).data = (tcFieldName i f).data
  rw [tcFieldName_data k f, tcFieldName_data i f,
      rfnb_skip test_cases_no_bracket,
      rfnb_hit (natChars_digits _ _) (natChars_ne_nil k)]

theorem fnbOpt_tcFieldName (k : Nat) (f : String) :
    fnbOpt (tcFieldName k f) = some (natStr k) := by
  rw [fnbOpt, tcFieldName_data k f, fnb_skip test_cases_no_bracket,
      fnb_hit (natChars_digits _ _) (natChars_ne_nil k)]
  rfl

theorem TCIndexedFrom_shaped :
    ∀ (blocks : List (List String)) (i : Nat), TCIndexedFrom i blocks → TCShaped blocks := by
  intro blocks
  induction blocks with
  | nil => intro i _ blk hblk; simp at hblk
  | cons b bs ih =>
    intro i h blk hblk nm hnm
    rcases List.mem_cons.mp hblk with rfl | hblk
    · rcases h.1 nm hnm with ⟨f, hf⟩
      exact ⟨i, f, hf⟩
    · exact ih (i + 1) h.2 blk hblk nm hnm

theorem updateTestCaseIndexesFrom_indexed :
    ∀ (blocks : List (List String)) (i : Nat), TCShaped blocks →
      TCIndexedFrom i (updateTestCaseIndexesFrom i blocks) := by
  intro blocks
  induction blocks with
  | nil => intro i _; exact trivial
  | cons b bs ih =>
    intro i h
    refine ⟨?_, ?_⟩
    · intro nm hnm
      rcases List.mem_map.mp hnm with ⟨nm0, hmem, rfl⟩
      rcases h b (List.mem_cons_self _ _) nm0 hmem with ⟨k, f, rfl⟩
      exact ⟨f, reindexName_tcFieldName i k f⟩
    · exact ih (i + 1) (fun blk hblk => h blk (List.mem_cons_of_mem _ hblk))

theorem TCShaped_append {b1 b2 : List (List String)}
    (h1 : TCShaped b1) (h2 : TCShaped b2) : TCShaped (b1 ++ b2) := by
  intro blk hblk
  rcases List.mem_append.mp hblk with h | h
  · exact h1 blk h
  · exact h2 blk h

theorem TCShaped_eraseIdx {blocks : List (List String)} (i : Nat)
    (h : TCShaped blocks) : TCShaped (blocks.eraseIdx i) :=
  fun blk hblk => h blk (List.eraseIdx_subset blocks i hblk)

theorem tcBlock_shaped (k : Nat) : TCShaped [tcBlock k] := by
  intro blk hblk nm hnm
  rcases List.mem_singleton.mp hblk with rfl
  simp only [tcBlock, List.mem_cons, List.not_mem_nil, or_false] at hnm
  rcases hnm with rfl | rfl | rfl | rfl | rfl | rfl | rfl <;> exact ⟨k, _, rfl⟩

theorem applyStudioOp_preserves {st : StudioState} (op : StudioOp)
    (h : TCIndexedFrom 0 st.testCases) :
    TCIndexedFrom 0 (applyStudioOp st op).testCases := by
  cases op with
  | addTC =>
    exact updateTestCaseIndexesFrom_indexed _ 0
      (TCShaped_append (TCIndexedFrom_shaped _ 0 h) (tcBlock_shaped _))
  | rmTC i =>
    by_cases hle : st.testCases.length ≤ 1
    · simpa [applyStudioOp, removeTestCase, hle] using h
    · simp only [applyStudioOp, removeTestCase, hle, if_false]
      exact updateTestCaseIndexesFrom_indexed _ 0
        (TCShaped_eraseIdx i (TCIndexedFrom_shaped _ 0 h))
  | addLang => exact h
  | rmLang i =>
    by_cases hle : st.languages.length ≤ 1 <;>
      simpa [applyStudioOp, removeLanguage, hle] using h

theorem TCIndexedFrom_boolB :
    ∀ (blocks : List (List String)) (i : Nat), TCIndexedFrom i blocks →
      groupIndexedFromB i blocks = true := by
  intro blocks
  induction blocks with
  | nil => intro i _; rfl
  | cons b bs ih =>
    intro i h
    simp only [groupIndexedFromB, Bool.and_eq_true, List.all_eq_true]
    refine ⟨?_, ih (i + 1) h.2⟩
    intro nm hnm
    rcases h.1 nm hnm with ⟨f, rfl⟩
    simp [fnbOpt_tcFieldName]

/- ## Claim C2 -/

/-- Claim C2 (counterexample): `validateForm` does not aggregate all
fields carrying validation rules — a form whose only rule-carrying
field has `data-validate="number"` and the non-numeric value `abc`
still enables save, while the spec-described aggregate fails it. -/
theorem c2_counterexample :
    validateForm ⟨[⟨"abc", "number"⟩], 1, 1⟩ ≠
      validateFormSpecAllRules ⟨[⟨"abc", "number"⟩], 1, 1⟩ := by
  decide

/-- Claim C2 (amended): the save button is enabled iff every field
whose `data-validate` attribute contains the substring `required`
passes `validateField`, at least one test case is present, and at
least one language is present; fields carrying only `number` or `url`
rules are not aggregated, so their failure does not disable save. -/
theorem c2_save_enabled_iff (form : StudioForm) :
    saveButtonEnabled form = true ↔
      ((∀ f ∈ form.fields, hasSubstr "required" f.validateAttr = true →
          (validateField f).isValid = true)
        ∧ form.testCaseCount ≠ 0 ∧ form.languageCount ≠ 0) := by
  simp only [saveButtonEnabled, validateForm, Bool.and_eq_true, List.all_eq_true,
    List.mem_filter, Bool.not_eq_true', beq_eq_false_iff_ne, ne_eq, and_imp]
  constructor
  · rintro ⟨⟨hf, htc⟩, hlang⟩
    exact ⟨fun f hmem hreq => hf f hmem hreq, htc, hlang⟩
  · rintro ⟨hf, htc, hlang⟩
    exact ⟨⟨fun f hmem hreq => hf f hmem hreq, htc⟩, hlang⟩

/- ## Claim C3 -/

/-- Claim C3 (counterexample): after `addLanguage` on an empty form,
the language block's input names are keyed `supported_languages[language_1][...]`,
with no zero-based numeric index at all, so the claimed invariant
fails for the language group. -/
theorem c3_counterexample :
    bothGroupsIndexedB (List.foldl applyStudioOp studioStart [StudioOp.addLang]) = false := by
  decide

/-- Claim C3 (amended): for every sequence of add/remove operations on
a studio state whose test-case blocks satisfy the index invariant, the
test-case group's input name indices stay contiguous, zero-based and
matching visual order after the whole sequence (hence after every
operation, since the sequence is arbitrary); the language group's name
attributes are keyed by language key and are never re-indexed. -/
theorem c3_test_case_indices_contiguous (ops : List StudioOp) (st : StudioState)
    (h : TCIndexedFrom 0 st.testCases) :
    groupIndexedFromB 0 ((List.foldl applyStudioOp st ops).testCases) = true := by
  induction ops generalizing st with
  | nil => exact TCIndexedFrom_boolB _ 0 h
  | cons op rest ih =>
    exact ih (applyStudioOp st op) (applyStudioOp_preserves op h)

/-- Witness for C3: two adds then a removal from the empty studio form
leave the surviving test-case block indexed `[0]`. -/
theorem c3_test_case_indices_contiguous_witness :
    groupIndexedFromB 0
      ((List.foldl applyStudioOp studioStart
        [StudioOp.addTC, StudioOp.addTC, StudioOp.rmTC 0]).testCases) = true :=
  c3_test_case_indices_contiguous [StudioOp.addTC, StudioOp.addTC, StudioOp.rmTC 0]
    studioStart trivial

/- ## Claim C4 -/

/-- Claim C4 (counterexample): with rules `number,url` and value
`abc`, both rules fail and the attached message is the url message,
not the message of the first failing rule (number). -/
theorem c4_counterexample :
    (validateField ⟨"abc", "number,url"⟩).feedback ≠
      firstFailingFeedback ⟨"abc", "number,url"⟩ := by
  decide

/-- Claim C4 (amended): when at least one rule fails, the field is
marked invalid with exactly one inline message, the message of the
*last* failing rule in declared order (each later check overwrites the
earlier message); when no rule fails and a `required` rule is present
(its value hence non-empty after trimming), the field is marked
visibly valid. -/
theorem c4_single_message_last_failing (f : FieldInput) :
    (validateField f).feedback = lastFailingFeedback f
    ∧ ((validateField f).isValid = true ↔ lastFailingFeedback f = none)
    ∧ (lastFailingFeedback f = none →
        (splitComma f.validateAttr).contains "required" = true →
        (validateField f).cssClass = "success") := by
  simp only [validateField, lastFailingFeedback]
  rcases h1 : (splitComma f.validateAttr).contains "required" <;>
    rcases h2 : (splitComma f.validateAttr).contains "number" <;>
      rcases h3 : (splitComma f.validateAttr).contains "url" <;>
        rcases h4 : (jsTrim f.value == "") <;>
          rcases h5 : jsIsNaN (jsTrim f.value) <;>
            rcases h6 : urlOk (jsTrim f.value) <;>
              simp [h1, h2, h3, h4, h5, h6, bne]

/-- Witness for C4 at a concrete passing field: rules
`required,number` with value `5` attach no message and mark the field
visibly valid. -/
theorem c4_single_message_last_failing_witness :
    (validateField ⟨"5", "required,number"⟩).feedback =
        lastFailingFeedback ⟨"5", "required,number"⟩
    ∧ (validateField ⟨"5", "required,number"⟩).cssClass = "success" :=
  ⟨(c4_single_message_last_failing ⟨"5", "required,number"⟩).1,
   (c4_single_message_last_failing ⟨"5", "required,number"⟩).2.2 (by decide) (by decide)⟩

/- ## Claim C1 -/

theorem data_append_mk (a b : List Char) :
    (String.mk a ++ String.mk b) = String.mk (a ++ b) := rfl

theorem escapeHtml_append (s t : String) :
    escapeHtml (s ++ t) = escapeHtml s ++ escapeHtml t := by
  apply strExt
  simp [escapeHtml, String.data_append]

theorem escChar_of_digit {c : Char} (h : c.isDigit = true) : escChar c = [c] := by
  have h1 : (c == '&') = false := by
    rcases hb : (c == '&') with _ | _
    · rfl
    · rw [eq_of_beq hb] at h; exact absurd h (by decide)
  have h2 : (c == '<') = false := by
    rcases hb : (c == '<') with _ | _
    · rfl
    · rw [eq_of_beq hb] at h; exact absurd h (by decide)
  have h3 : (c == '>') = false := by
    rcases hb : (c == '>') with _ | _
    · rfl
    · rw [eq_of_beq hb] at h; exact absurd h (by decide)
  simp [escChar, h1, h2, h3]

theorem escapeHtml_of_digits {cs : List Char} (h : ∀ c ∈ cs, c.isDigit = true) :
    escapeHtml (String.mk cs) = String.mk cs := by
  apply strExt
  show (cs.map escChar).flatten = cs
  induction cs with
  | nil => rfl
  | cons a as ih =>
    simp only [List.map_cons, List.flatten_cons,
      escChar_of_digit (h a (by simp)), List.singleton_append]
    exact congrArg (a :: ·) (ih (fun c hc => h c (by simp [hc])))

theorem escapeHtml_natStr (n : Nat) : escapeHtml (natStr n) = natStr n :=
  escapeHtml_of_digits (natChars_digits (n + 1) n)

theorem escapeHtml_scoreFixed1 (n : Nat) :
    escapeHtml (scoreFixed1 n) = scoreFixed1 n := by
  have hdot : escapeHtml "." = "." := by decide
  rw [scoreFixed1, escapeHtml_append, escapeHtml_append, escapeHtml_natStr,
      escapeHtml_natStr, hdot]

theorem testResultItemHtml_escaped (t : TestResult) :
    testResultItemHtmlSpecEscaped t = testResultItemHtml t := by
  simp only [testResultItemHtmlSpecEscaped, testResultItemHtml,
    escapeHtml_natStr]

set_option maxRecDepth 20000 in
/-- Claim C1 (counterexample): a successful `run_code` response whose
`status.description` is `<b>x</b>` is rendered with the raw markup,
differing from the fully-escaped rendering the spec describes. -/
theorem c1_counterexample :
    displayExecutionResult ⟨true, "", "", "", some ⟨"<b>x</b>"⟩, "", ""⟩ ≠
      displayExecutionResultSpecEscaped ⟨true, "", "", "", some ⟨"<b>x</b>"⟩, "", ""⟩ := by
  decide

/-- Claim C1 (amended): every free-text field of a rendered result —
compile output, stdout, stderr/error text, test names, expected and
actual outputs, and (being digit strings) the points and score fields —
is HTML-escaped before insertion, with one exception: the status line
of `displayExecutionResult` interpolates `status.description`, `time`
and `memory` unescaped.  Concretely, `displaySubmissionResult` agrees
with the fully-escaped rendering on every response, and
`displayExecutionResult` agrees with it whenever the response carries
no status object. -/
theorem c1_escaping_except_status_line :
    (∀ s : SubmitResponse,
        displaySubmissionResult s = displaySubmissionResultSpecEscaped s)
    ∧ (∀ r : RunResponse, r.status = none →
        displayExecutionResult r = displayExecutionResultSpecEscaped r) := by
  constructor
  · intro s
    have hfe : testResultItemHtmlSpecEscaped = testResultItemHtml :=
      funext testResultItemHtml_escaped
    simp [displaySubmissionResult, displaySubmissionResultSpecEscaped,
      escapeHtml_natStr, escapeHtml_scoreFixed1, hfe]
  · intro r h
    simp [displayExecutionResult, displayExecutionResultSpecEscaped, h]

/-- Witness for C1: a concrete status-free failure response and a
concrete submission response render identically under the code and the
fully-escaped spec rendering. -/
theorem c1_escaping_except_status_line_witness :
    displayExecutionResult ⟨false, "", "", "<script>alert(1)</script>", none, "", ""⟩ =
      displayExecutionResultSpecEscaped ⟨false, "", "", "<script>alert(1)</script>", none, "", ""⟩
    ∧ displaySubmissionResult ⟨3, 4, 75, 10, [⟨"<i>t</i>", false, 10, 0, true, "a<b", "c&d"⟩]⟩ =
      displaySubmissionResultSpecEscaped ⟨3, 4, 75, 10, [⟨"<i>t</i>", false, 10, 0, true, "a<b", "c&d"⟩]⟩ :=
  ⟨c1_escaping_except_status_line.2 ⟨false, "", "", "<script>alert(1)</script>", none, "", ""⟩ rfl,
   c1_escaping_except_status_line.1 ⟨3, 4, 75, 10, [⟨"<i>t</i>", false, 10, 0, true, "a<b", "c&d"⟩]⟩⟩

/- ## Claim C5 -/

theorem lookup_setKey_self {l : List (String × FileData)} {k : String}
    {fd fd2 : FileData} (h : List.lookup k l = some fd) :
    List.lookup k (setKey k fd2 l) = some fd2 := by
  induction l with
  | nil => simp at h
  | cons p t ih =>
    rcases hb : (k == p.1) with _ | _
    · have hb2 : (p.1 == k) = false := by
        simp only [beq_eq_false_iff_ne] at hb ⊢; exact fun he => hb he.symm
      simp only [List.lookup, hb] at h
      simp only [setKey, hb2, Bool.false_eq_true, if_false, List.lookup, hb]
      exact ih h
    · have hb2 : (p.1 == k) = true := by
        simp only [beq_iff_eq] at hb ⊢; exact hb.symm
      simp [setKey, hb2, List.lookup, hb]

theorem lookup_setKey_ne {l : List (String × FileData)} {k k2 : String}
    {fd2 : FileData} (h : k2 ≠ k) :
    List.lookup k2 (setKey k fd2 l) = List.lookup k2 l := by
  induction l with
  | nil => rfl
  | cons p t ih =>
    rcases hb : (p.1 == k) with _ | _
    · simp [setKey, hb, List.lookup, ih]
    · have hk : p.1 = k := by simpa using hb
      have h2 : (k2 == p.1) = false := by simp [hk, h]
      simp [setKey, hb, List.lookup, h2, ih]

theorem lookup_append_self {l : List (String × FileData)} {g : String}
    {fd : FileData} (h : List.lookup g l = none) :
    List.lookup g (l ++ [(g, fd)]) = some fd := by
  induction l with
  | nil => simp [List.lookup]
  | cons p t ih =>
    rcases hb : (g == p.1) with _ | _
    · simp only [List.lookup, hb] at h
      simp only [List.cons_append, List.lookup, hb]
      exact ih h
    · simp [List.lookup, hb] at h

theorem lookup_append_ne {l : List (String × FileData)} {g f : String}
    {fd : FileData} (h : f ≠ g) :
    List.lookup f (l ++ [(g, fd)]) = List.lookup f l := by
  induction l with
  | nil => simp [List.lookup, beq_eq_false_iff_ne.mpr h]
  | cons p t ih =>
    rcases hb : (f == p.1) with _ | _ <;> simp [List.lookup, hb, ih]

/-- Claim C5: the `save_file` success continuation resolves the target
file at response time.  If a request carrying content `c` for file `f`
is pending and the active file has since become `g ≠ f`, running the
continuation stores `c` and the current language under `g`, clears
`g`'s dirty mark, and leaves `f`'s stored data untouched. -/
theorem c5_save_continuation_uses_response_time_active_file
    (st : WState) (c f now : String)
    (hne : st.activeFile ≠ f) (hnd : st.dirtyTabs.Nodup) :
    (List.lookup st.activeFile (saveFileSuccess st c now).files).map
        (fun fd => (fd.content, fd.language)) = some (c, st.currentLanguage)
    ∧ List.lookup f (saveFileSuccess st c now).files = List.lookup f st.files
    ∧ st.activeFile ∉ (saveFileSuccess st c now).dirtyTabs := by
  unfold saveFileSuccess updateStudentFiles removeModifiedMark
  cases hl : List.lookup st.activeFile st.files with
  | some fd =>
    simp only [hl]
    refine ⟨?_, ?_, ?_⟩
    · rw [lookup_setKey_self hl]; rfl
    · exact lookup_setKey_ne hne.symm
    · exact hnd.not_mem_erase
  | none =>
    simp only [hl]
    refine ⟨?_, ?_, ?_⟩
    · rw [lookup_append_self hl]; rfl
    · exact lookup_append_ne hne.symm
    · exact hnd.not_mem_erase

/-- Witness for C5 at a concrete state: active file `main.py`, pending
save of `util.py`. -/
theorem c5_save_continuation_uses_response_time_active_file_witness :
    (List.lookup wsTwo.activeFile (saveFileSuccess wsTwo "new code" "t1").files).map
        (fun fd => (fd.content, fd.language)) = some ("new code", wsTwo.currentLanguage)
    ∧ List.lookup "util.py" (saveFileSuccess wsTwo "new code" "t1").files =
        List.lookup "util.py" wsTwo.files
    ∧ wsTwo.activeFile ∉ (saveFileSuccess wsTwo "new code" "t1").dirtyTabs :=
  c5_save_continuation_uses_response_time_active_file wsTwo "new code" "util.py" "t1"
    (by decide) (by decide)

/- ## Claim C6 -/

/-- Claim C6: whatever the outcome of a `run_code` call — success
response, failure response, or transport error — the `.finally` step
restores `isExecuting` to false and re-enables the run/submit
controls. -/
theorem c6_executing_restored (st : WState) (outcome : Except Unit RunResponse)
    (h : st.isExecuting = false) :
    (runCode st outcome).isExecuting = false
    ∧ (runCode st outcome).buttonsDisabled = false
    ∧ (runCode st outcome).loadingShown = false := by
  cases outcome <;> simp [runCode, h, setExecutionState, switchOutputTab]

/-- Witness for C6: a failed `run_code` response on the resting
workspace leaves `isExecuting` false and the controls enabled. -/
theorem c6_executing_restored_witness :
    (runCode wsTwo (Except.ok ⟨false, "", "", "Compilation error", none, "", ""⟩)).isExecuting = false
    ∧ (runCode wsTwo (Except.ok ⟨false, "", "", "Compilation error", none, "", ""⟩)).buttonsDisabled = false
    ∧ (runCode wsTwo (Except.ok ⟨false, "", "", "Compilation error", none, "", ""⟩)).loadingShown = false :=
  c6_executing_restored wsTwo (Except.ok ⟨false, "", "", "Compilation error", none, "", ""⟩) rfl

/- ## Claim C7 -/

/-- A failed handler outcome: business failure (`success: false`) or
transport error. -/
def handlerFailed (outcome : Except Unit HandlerResponse) : Prop :=
  match outcome with
  | .ok resp => resp.success = false
  | .error _ => True

/-- Claim C7: `createNewFile` rejects an empty trimmed name or a name
equal to an existing file's name with a local error notification,
without calling the handler and without touching the file map or
tabs; and when the handler is called but fails, the file map, tabs and
active file are unchanged as well. -/
theorem c7_create_rejects_locally_and_aborts_on_failure
    (st : WState) (rawName language now : String)
    (outcome : Except Unit HandlerResponse) :
    ((jsTrim rawName = "" ∨ (List.lookup (jsTrim rawName) st.files).isSome = true) →
      (createNewFile st rawName language now outcome).called = false
      ∧ (createNewFile st rawName language now outcome).state.files = st.files
      ∧ (createNewFile st rawName language now outcome).state.tabs = st.tabs
      ∧ ∃ m, (createNewFile st rawName language now outcome).state.notifications =
          st.notifications ++ [("error", m)])
    ∧ (jsTrim rawName ≠ "" → (List.lookup (jsTrim rawName) st.files).isSome = false →
        handlerFailed outcome →
        (createNewFile st rawName language now outcome).state.files = st.files
        ∧ (createNewFile st rawName language now outcome).state.tabs = st.tabs
        ∧ (createNewFile st rawName language now outcome).state.activeFile = st.activeFile) := by
  constructor
  · intro h
    by_cases hemp : jsTrim rawName = ""
    · simp [createNewFile, hemp, notify]
    · rcases h with h | hsome
      · exact absurd h hemp
      · simp [createNewFile, hemp, hsome, notify]
  · intro hne hnone hfail
    cases outcome with
    | ok resp =>
      have hsucc : resp.success = false := hfail
      simp [createNewFile, hne, hnone, hsucc, notify]
    | error e => simp [createNewFile, hne, hnone, notify]

/-- Witness for C7: creating `main.py` (collision) issues no call and
changes nothing; a failed save of `new.py` changes no local state. -/
theorem c7_create_rejects_locally_and_aborts_on_failure_witness :
    ((createNewFile wsTwo "main.py" "python" "t1" (Except.ok ⟨true, "", ""⟩)).called = false
      ∧ (createNewFile wsTwo "main.py" "python" "t1" (Except.ok ⟨true, "", ""⟩)).state.files = wsTwo.files
      ∧ (createNewFile wsTwo "main.py" "python" "t1" (Except.ok ⟨true, "", ""⟩)).state.tabs = wsTwo.tabs
      ∧ ∃ m, (createNewFile wsTwo "main.py" "python" "t1" (Except.ok ⟨true, "", ""⟩)).state.notifications =
          wsTwo.notifications ++ [("error", m)])
    ∧ ((createNewFile wsTwo "new.py" "python" "t1" (Except.ok ⟨false, "", "boom"⟩)).state.files = wsTwo.files
      ∧ (createNewFile wsTwo "new.py" "python" "t1" (Except.ok ⟨false, "", "boom"⟩)).state.tabs = wsTwo.tabs
      ∧ (createNewFile wsTwo "new.py" "python" "t1" (Except.ok ⟨false, "", "boom"⟩)).state.activeFile = wsTwo.activeFile) :=
  ⟨(c7_create_rejects_locally_and_aborts_on_failure wsTwo "main.py" "python" "t1"
      (Except.ok ⟨true, "", ""⟩)).1 (Or.inr (by decide)),
   (c7_create_rejects_locally_and_aborts_on_failure wsTwo "new.py" "python" "t1"
      (Except.ok ⟨false, "", "boom"⟩)).2 (by decide) (by decide) rfl⟩

/- ## Claim C8 -/

/-- Claim C8: with exactly one file in the workspace, `deleteFile` is
rejected before the confirmation prompt and before any handler call,
whatever the confirmation answer or outcome would have been, so the
file map keeps its single file. -/
theorem c8_sole_file_delete_rejected (st : WState) (filename : String)
    (confirmed : Bool) (outcome : Except Unit HandlerResponse)
    (h : st.files.length = 1) :
    (deleteFile st filename confirmed outcome).prompted = false
    ∧ (deleteFile st filename confirmed outcome).called = false
    ∧ (deleteFile st filename confirmed outcome).state.files = st.files
    ∧ (deleteFile st filename confirmed outcome).state.activeFile = st.activeFile := by
  have hle : st.files.length ≤ 1 := h.le
  simp [deleteFile, hle, notify]

/-- Witness for C8: the single-file workspace rejects deletion even
with confirmation granted and a would-be successful server response. -/
theorem c8_sole_file_delete_rejected_witness :
    (deleteFile wsOne "main.py" true (Except.ok ⟨true, "", ""⟩)).prompted = false
    ∧ (deleteFile wsOne "main.py" true (Except.ok ⟨true, "", ""⟩)).called = false
    ∧ (deleteFile wsOne "main.py" true (Except.ok ⟨true, "", ""⟩)).state.files = wsOne.files
    ∧ (deleteFile wsOne "main.py" true (Except.ok ⟨true, "", ""⟩)).state.activeFile = wsOne.activeFile :=
  c8_sole_file_delete_rejected wsOne "main.py" true (Except.ok ⟨true, "", ""⟩) (by decide)

/- ## Claim C10 -/

/-- Claim C10: `switchToFile` invoked with the currently active file is
a complete no-op — no save fired, no editor reload, no tab/selector
re-render, and the state is returned unchanged. -/
theorem c10_switch_to_active_file_noop (st : WState) (filename language : String)
    (h : st.activeFile = filename) :
    switchToFile st filename language = ⟨st, false, false, false⟩ := by
  subst h
  simp [switchToFile]

/-- Witness for C10: switching to the already-active `main.py`. -/
theorem c10_switch_to_active_file_noop_witness :
    switchToFile wsTwo "main.py" "java" = ⟨wsTwo, false, false, false⟩ :=
  c10_switch_to_active_file_noop wsTwo "main.py" "java" rfl

/- ## Claim C9 -/

theorem eraseKey_ne_nil {l : List (String × FileData)} {fn : String}
    (hlen : 2 ≤ l.length) (hnd : (l.map Prod.fst).Nodup) :
    eraseKey fn l ≠ [] := by
  intro hemp
  have hall : ∀ p ∈ l, p.1 = fn := by
    intro p hp
    have := List.filter_eq_nil_iff.mp hemp p hp
    simpa using this
  match l, hlen with
  | a :: b :: t, _ =>
    have ha : a.1 = fn := hall a (by simp)
    have hb : b.1 = fn := hall b (by simp)
    have : a.1 ∉ (b :: t).map Prod.fst := by
      simpa using (List.nodup_cons.mp hnd).1
    exact this (by simp [ha, hb])

/-- Claim C9 (amended): a confirmed, server-successful `deleteFile` of
the active file (at least two files present, keys distinct) removes the
file from the map and its tab, and switches the active file to the
*first remaining file in map iteration order* (insertion order for
these string keys), i.e. `Object.keys(...)[0]` — not necessarily the
lexicographically smallest name. -/
theorem c9_delete_active_switches_to_first_remaining
    (st : WState) (fn msg errs : String)
    (hnd : (st.files.map Prod.fst).Nodup) (hlen : 2 ≤ st.files.length)
    (hact : st.activeFile = fn) :
    (deleteFile st fn true (Except.ok ⟨true, msg, errs⟩)).state.files = eraseKey fn st.files
    ∧ (deleteFile st fn true (Except.ok ⟨true, msg, errs⟩)).state.tabs = st.tabs.erase fn
    ∧ ((eraseKey fn st.files).map Prod.fst).head? =
        some (deleteFile st fn true (Except.ok ⟨true, msg, errs⟩)).state.activeFile := by
  have hle : ¬ st.files.length ≤ 1 := by omega
  obtain ⟨p, rest, hpr⟩ : ∃ p rest, eraseKey fn st.files = p :: rest := by
    cases hk : eraseKey fn st.files with
    | nil => exact absurd hk (eraseKey_ne_nil hlen hnd)
    | cons p rest => exact ⟨p, rest, rfl⟩
  have hpmem : p ∈ eraseKey fn st.files := by rw [hpr]; exact List.mem_cons_self p rest
  have hpne : (p.1 != fn) = true := (List.mem_filter.mp hpmem).2
  have hfnp : (fn == p.1) = false := by
    simp only [bne_iff_ne, ne_eq] at hpne
    simp only [beq_eq_false_iff_ne, ne_eq]
    exact fun he => hpne he.symm
  simp only [deleteFile, hle, if_false, Bool.not_true, Bool.false_eq_true,
    hpr, List.head?_cons, hact, beq_self_eq_true, if_true, switchToFile, hfnp,
    loadActiveFile, updateFileTabsUI, updateLanguageSelector, notify]
  simp [hpr]

/-- Claim C9 (counterexample): with files inserted in the order
`m.py, z.py, a.py` and `m.py` active, a confirmed successful delete of
`m.py` makes `z.py` active — the first remaining key in iteration
order — while the lexicographically-first remaining name is `a.py`. -/
theorem c9_counterexample :
    (deleteFile wsThree "m.py" true (Except.ok ⟨true, "deleted", ""⟩)).state.activeFile = "z.py"
    ∧ lexFirst ((eraseKey "m.py" wsThree.files).map Prod.fst) = some "a.py"
    ∧ ("z.py" : String) ≠ "a.py" := by
  refine ⟨?_, by decide, by decide⟩
  decide

/-- Witness for C9 on the two-file workspace: deleting the active
`main.py` leaves `util.py` as the active file. -/
theorem c9_delete_active_switches_to_first_remaining_witness :
    (deleteFile wsTwo "main.py" true (Except.ok ⟨true, "ok", ""⟩)).state.files =
        eraseKey "main.py" wsTwo.files
    ∧ (deleteFile wsTwo "main.py" true (Except.ok ⟨true, "ok", ""⟩)).state.tabs =
        wsTwo.tabs.erase "main.py"
    ∧ ((eraseKey "main.py" wsTwo.files).map Prod.fst).head? =
        some (deleteFile wsTwo "main.py" true (Except.ok ⟨true, "ok", ""⟩)).state.activeFile :=
  c9_delete_active_switches_to_first_remaining wsTwo "main.py" "ok" ""
    (by decide) (by decide) rfl

/-- Witness for C2: a form with one valid required field, one test case
and one language has its save button enabled. -/
theorem c2_save_enabled_iff_witness :
    saveButtonEnabled ⟨[⟨"t1", "required"⟩], 1, 1⟩ = true :=
  (c2_save_enabled_iff ⟨[⟨"t1", "required"⟩], 1, 1⟩).mpr
    ⟨by decide, by decide, by decide⟩
